import Mathlib

/-!
Verification of the streaming segmentation / speech-synthesis pipeline of the
V-Mate repository.  All definitions are shallow embeddings of the Python source:
`TextSplitter` (src/app.py), `AIConversationManager.stream_gemini_response` and
`generate_response_streaming` (src/app.py), `ElevenLabsQueue` (src/app.py),
`TTSManager.synthesize_speech_optimized` (src/app.py),
`analyze_emotion` / `analyze_emotion_simple` (src/app.py), and
`VoiceService.generate_audio` (src/services/voice_service.py).
Text is modelled as `List Char` (Python strings are sequences of code points,
and `len`/indexing in the source count code points).
-/

namespace VMate

/-! ### Python string helpers

`str.strip()` in Python removes leading and trailing whitespace code points.
`pyIsSpace` is the full set of code points CPython treats as whitespace
(`Py_UNICODE_ISSPACE`): the ASCII whitespace and separator controls
U+0009-U+000D, U+001C-U+001F and space, then U+0085, U+00A0, U+1680,
U+2000-U+200A, U+2028, U+2029, U+202F, U+205F and the ideographic space
U+3000. -/

def pyIsSpace (c : Char) : Bool :=
  c = '\t' || c = '\n' || c = '\x0b' || c = '\x0c' || c = '\r' ||
  c = '\x1c' || c = '\x1d' || c = '\x1e' || c = '\x1f' || c = ' ' ||
  c = '\x85' || c = '\xa0' || c = '\u1680' ||
  ('\u2000' ≤ c && c ≤ '\u200a') ||
  c = '\u2028' || c = '\u2029' || c = '\u202f' || c = '\u205f' || c = '　'

/-- Model of Python `str.strip()`: drop whitespace from both ends. -/
def pyStrip (l : List Char) : List Char :=
  ((l.dropWhile pyIsSpace).reverse.dropWhile pyIsSpace).reverse

/-- Model of Python truthiness test `not text or not text.strip()`:
an empty or whitespace-only string. -/
def pyIsBlank (l : List Char) : Bool :=
  l.all pyIsSpace

theorem dropWhile_eq_self_of_no (p : Char → Bool) :
    ∀ l : List Char, (∀ c ∈ l, p c = false) → l.dropWhile p = l := by
  intro l h
  cases l with
  | nil => rfl
  | cons a t => simp [List.dropWhile, h a (by simp)]

theorem pyStrip_eq_self {l : List Char} (h : ∀ c ∈ l, pyIsSpace c = false) :
    pyStrip l = l := by
  unfold pyStrip
  rw [dropWhile_eq_self_of_no pyIsSpace l h,
      dropWhile_eq_self_of_no pyIsSpace l.reverse (by intro c hc; exact h c (by simpa using hc)),
      List.reverse_reverse]

theorem pyStrip_length_le (l : List Char) : (pyStrip l).length ≤ l.length := by
  unfold pyStrip
  calc ((l.dropWhile pyIsSpace).reverse.dropWhile pyIsSpace).reverse.length
      = ((l.dropWhile pyIsSpace).reverse.dropWhile pyIsSpace).length := by
        rw [List.length_reverse]
    _ ≤ (l.dropWhile pyIsSpace).reverse.length :=
        (List.dropWhile_sublist pyIsSpace).length_le
    _ = (l.dropWhile pyIsSpace).length := by rw [List.length_reverse]
    _ ≤ l.length := (List.dropWhile_sublist pyIsSpace).length_le

/-! ### TextSplitter (src/app.py, class TextSplitter)

`sentence_endings = ['。', '！', '？', '.', '!', '?']` and
`breath_markers = ['、', ',', '…', '・・・']`.  Note the last breath marker is a
three-character string; the source tests `char in self.breath_markers` on a
single character, which can never equal it, so it is kept here as a
three-element list to preserve that behaviour. -/

def sentence_endings : List Char := ['。', '！', '？', '.', '!', '?']

def breath_markers : List (List Char) := [['、'], [','], ['…'], ['・', '・', '・']]

/-- `char in self.breath_markers` for a single character `c`. -/
def isBreathChar (c : Char) : Bool :=
  breath_markers.any (fun m => m = [c])

/-- Loop of `TextSplitter.split_by_sentences`: accumulate characters into
`current` and cut after every sentence-ending character. -/
def splitBySentencesAux : List Char → List Char → List (List Char)
  | current, [] => if current.isEmpty then [] else [current]
  | current, c :: rest =>
    if sentence_endings.contains c then
      (current ++ [c]) :: splitBySentencesAux [] rest
    else
      splitBySentencesAux (current ++ [c]) rest

/-- `TextSplitter.split_by_sentences`. -/
def split_by_sentences (text : List Char) : List (List Char) :=
  splitBySentencesAux [] text

/-- Loop of `TextSplitter.split_by_breath_markers`: cut after a breath marker
or whenever the accumulated chunk reaches `chunk_size`; a cut chunk that is
whitespace-only is dropped; the final remainder is kept unconditionally. -/
def splitByBreathAux (cs : Nat) : List Char → List Char → List (List Char)
  | current, [] => if current.isEmpty then [] else [current]
  | current, c :: rest =>
    if isBreathChar c || cs ≤ (current ++ [c]).length then
      if (pyStrip (current ++ [c])).isEmpty then
        splitByBreathAux cs [] rest
      else
        (current ++ [c]) :: splitByBreathAux cs [] rest
    else
      splitByBreathAux cs (current ++ [c]) rest

/-- `TextSplitter.split_by_breath_markers` with chunk size `cs`. -/
def split_by_breath_markers (cs : Nat) (text : List Char) : List (List Char) :=
  splitByBreathAux cs [] text

/-- The sequence of pieces fed to the packing loop of `split_for_streaming`:
each sentence, expanded through `split_by_breath_markers` when it is longer
than `chunk_size`. -/
def sentencePieces (cs : Nat) (text : List Char) : List (List Char) :=
  ((split_by_sentences text).map
    (fun s => if cs < s.length then split_by_breath_markers cs s else [s])).flatten

/-- Packing loop of `split_for_streaming`: a piece is appended to the current
buffer unless the buffer is non-empty and appending would exceed `chunk_size`,
in which case the stripped buffer is emitted (when not whitespace-only) and the
piece starts a new buffer; at the end the stripped remainder is emitted when
not whitespace-only. -/
def packAux (cs : Nat) : List Char → List (List Char) → List (List Char)
  | current, [] =>
    if (pyStrip current).isEmpty then [] else [pyStrip current]
  | current, p :: rest =>
    if current ≠ [] ∧ cs < (current ++ p).length then
      if (pyStrip current).isEmpty then
        packAux cs p rest
      else
        pyStrip current :: packAux cs p rest
    else
      packAux cs (current ++ p) rest

/-- `TextSplitter.split_for_streaming` with chunk size `cs`
(source default `chunk_size = 50`). -/
def split_for_streaming (cs : Nat) (text : List Char) : List (List Char) :=
  if text.isEmpty then []
  else (packAux cs [] (sentencePieces cs text)).filter (fun ch => !(pyStrip ch).isEmpty)

/-! ### Lemmas about the splitter -/

theorem splitBySentencesAux_flatten (text : List Char) :
    ∀ current, (splitBySentencesAux current text).flatten = current ++ text := by
  induction text with
  | nil =>
    intro current
    by_cases h : current.isEmpty
    · simp [splitBySentencesAux, h, List.isEmpty_iff.mp h]
    · simp [splitBySentencesAux, h]
  | cons c rest ih =>
    intro current
    by_cases h : c ∈ sentence_endings
    · simp [splitBySentencesAux, h, ih []]
    · simp [splitBySentencesAux, h, ih (current ++ [c])]

theorem split_by_sentences_flatten (text : List Char) :
    (split_by_sentences text).flatten = text := by
  simpa using splitBySentencesAux_flatten text []

theorem splitByBreathAux_flatten_nospace (cs : Nat) :
    ∀ text, (∀ c ∈ text, pyIsSpace c = false) →
      ∀ current, (∀ c ∈ current, pyIsSpace c = false) →
        (splitByBreathAux cs current text).flatten = current ++ text := by
  intro text
  induction text with
  | nil =>
    intro _ current _
    by_cases h : current.isEmpty
    · simp [splitByBreathAux, h, List.isEmpty_iff.mp h]
    · simp [splitByBreathAux, h]
  | cons d rest ih =>
    intro ht current hcur
    have hcc : ∀ x ∈ current ++ [d], pyIsSpace x = false := by
      intro x hx
      rcases List.mem_append.mp hx with hx | hx
      · exact hcur x hx
      · simp at hx; rw [hx]; exact ht d (by simp)
    have hrest : ∀ x ∈ rest, pyIsSpace x = false := fun x hx => ht x (by simp [hx])
    have hstrip : pyStrip (current ++ [d]) = current ++ [d] := pyStrip_eq_self hcc
    by_cases h : (isBreathChar d || decide (cs ≤ (current ++ [d]).length)) = true
    · have hne : ((pyStrip (current ++ [d])).isEmpty) = false := by
        rw [hstrip]; simp
      rw [splitByBreathAux, if_pos h, if_neg (by rw [hne]; simp)]
      have := ih hrest [] (by intro x hx; simp at hx)
      simp [this]
    · rw [splitByBreathAux, if_neg h]
      rw [ih hrest (current ++ [d]) hcc]
      simp

theorem splitByBreathAux_length_le (cs : Nat) (hcs : 0 < cs) (text : List Char) :
    ∀ current, current.length < cs →
      ∀ ch ∈ splitByBreathAux cs current text, ch.length ≤ cs := by
  induction text with
  | nil =>
    intro current hlt ch hch
    by_cases h : current.isEmpty
    · rw [splitByBreathAux, if_pos h] at hch; simp at hch
    · rw [splitByBreathAux, if_neg h] at hch
      simp at hch; subst hch; omega
  | cons c rest ih =>
    intro current hlt ch hch
    by_cases h : (isBreathChar c || decide (cs ≤ (current ++ [c]).length)) = true
    · rw [splitByBreathAux, if_pos h] at hch
      by_cases hs : ((pyStrip (current ++ [c])).isEmpty) = true
      · rw [if_pos hs] at hch
        exact ih [] (by simpa using hcs) ch hch
      · rw [if_neg hs] at hch
        rcases List.mem_cons.mp hch with hch | hch
        · subst hch; simp; omega
        · exact ih [] (by simpa using hcs) ch hch
    · rw [splitByBreathAux, if_neg h] at hch
      have hlen : (current ++ [c]).length < cs := by
        simp only [Bool.or_eq_true, decide_eq_true_eq] at h
        push_neg at h
        omega
      exact ih (current ++ [c]) hlen ch hch

theorem sentencePieces_flatten_nospace (cs : Nat) (text : List Char)
    (ht : ∀ c ∈ text, pyIsSpace c = false) :
    (sentencePieces cs text).flatten = text := by
  have hmem : ∀ s ∈ split_by_sentences text, ∀ c ∈ s, pyIsSpace c = false := by
    intro s hs c hc
    exact ht c (by rw [← split_by_sentences_flatten text]
                   exact List.mem_flatten.mpr ⟨s, hs, hc⟩)
  unfold sentencePieces
  have key : ∀ L : List (List Char), (∀ s ∈ L, ∀ c ∈ s, pyIsSpace c = false) →
      (((L.map (fun s => if cs < s.length then split_by_breath_markers cs s
          else [s])).flatten).flatten) = L.flatten := by
    intro L
    induction L with
    | nil => intro _; simp
    | cons s L ihL =>
      intro hL
      have hsf : (if cs < s.length then split_by_breath_markers cs s else [s]).flatten = s := by
        by_cases hlen : cs < s.length
        · rw [if_pos hlen]
          unfold split_by_breath_markers
          simpa using splitByBreathAux_flatten_nospace cs s
            (fun c hc => hL s (by simp) c hc) [] (by intro x hx; simp at hx)
        · rw [if_neg hlen]; simp
      simp only [List.map_cons, List.flatten_cons, List.flatten_append, hsf,
        ihL (fun x hx c hc => hL x (by simp [hx]) c hc)]
  rw [key (split_by_sentences text) hmem, split_by_sentences_flatten]

theorem sentencePieces_length_le (cs : Nat) (hcs : 0 < cs) (text : List Char) :
    ∀ p ∈ sentencePieces cs text, p.length ≤ cs := by
  intro p hp
  unfold sentencePieces at hp
  rcases List.mem_flatten.mp hp with ⟨l, hl, hpl⟩
  rcases List.mem_map.mp hl with ⟨s, _, hfs⟩
  by_cases hlen : cs < s.length
  · rw [if_pos hlen] at hfs
    subst hfs
    exact splitByBreathAux_length_le cs hcs s [] (by simpa using hcs) p hpl
  · rw [if_neg hlen] at hfs
    subst hfs
    simp at hpl
    subst hpl
    omega

theorem packAux_flatten_nospace (cs : Nat) :
    ∀ ps : List (List Char), (∀ p ∈ ps, ∀ c ∈ p, pyIsSpace c = false) →
    ∀ current, (∀ c ∈ current, pyIsSpace c = false) →
      (packAux cs current ps).flatten = current ++ ps.flatten := by
  intro ps
  induction ps with
  | nil =>
    intro _ current hcur
    have hstrip : pyStrip current = current := pyStrip_eq_self hcur
    by_cases h : current.isEmpty
    · rw [packAux, if_pos (by rw [hstrip]; exact h)]
      simp [List.isEmpty_iff.mp h]
    · rw [packAux, if_neg (by rw [hstrip]; exact h)]
      simp [hstrip]
  | cons p rest ih =>
    intro hps current hcur
    have hp : ∀ c ∈ p, pyIsSpace c = false := hps p (by simp)
    have hrest : ∀ q ∈ rest, ∀ c ∈ q, pyIsSpace c = false :=
      fun q hq => hps q (by simp [hq])
    have hstrip : pyStrip current = current := pyStrip_eq_self hcur
    by_cases h : current ≠ [] ∧ cs < (current ++ p).length
    · have hne : ((pyStrip current).isEmpty) = false := by
        rw [hstrip]; exact List.isEmpty_eq_false.mpr h.1
      rw [packAux, if_pos h, if_neg (by rw [hne]; simp)]
      simp [hstrip, ih hrest p hp]
    · rw [packAux, if_neg h]
      rw [ih hrest (current ++ p) (by
        intro x hx
        rcases List.mem_append.mp hx with hx | hx
        · exact hcur x hx
        · exact hp x hx)]
      simp

theorem packAux_mem_nospace (cs : Nat) :
    ∀ ps : List (List Char), (∀ p ∈ ps, ∀ c ∈ p, pyIsSpace c = false) →
    ∀ current, (∀ c ∈ current, pyIsSpace c = false) →
      ∀ ch ∈ packAux cs current ps, ch ≠ [] ∧ ∀ c ∈ ch, pyIsSpace c = false := by
  intro ps
  induction ps with
  | nil =>
    intro _ current hcur ch hch
    have hstrip : pyStrip current = current := pyStrip_eq_self hcur
    by_cases h : ((pyStrip current).isEmpty) = true
    · rw [packAux, if_pos h] at hch; simp at hch
    · rw [packAux, if_neg h] at hch
      simp at hch
      subst hch
      rw [hstrip] at h ⊢
      exact ⟨List.isEmpty_eq_false.mp (by simpa using h), hcur⟩
  | cons p rest ih =>
    intro hps current hcur ch hch
    have hp : ∀ c ∈ p, pyIsSpace c = false := hps p (by simp)
    have hrest : ∀ q ∈ rest, ∀ c ∈ q, pyIsSpace c = false :=
      fun q hq => hps q (by simp [hq])
    have hstrip : pyStrip current = current := pyStrip_eq_self hcur
    by_cases h : current ≠ [] ∧ cs < (current ++ p).length
    · by_cases hs : ((pyStrip current).isEmpty) = true
      · rw [packAux, if_pos h, if_pos hs] at hch
        exact ih hrest p hp ch hch
      · rw [packAux, if_pos h, if_neg hs] at hch
        rcases List.mem_cons.mp hch with hch | hch
        · subst hch
          rw [hstrip]
          exact ⟨h.1, hcur⟩
        · exact ih hrest p hp ch hch
    · rw [packAux, if_neg h] at hch
      exact ih hrest (current ++ p) (by
        intro x hx
        rcases List.mem_append.mp hx with hx | hx
        · exact hcur x hx
        · exact hp x hx) ch hch

theorem packAux_length_le (cs : Nat) :
    ∀ ps : List (List Char), (∀ p ∈ ps, p.length ≤ cs) →
    ∀ current, current.length ≤ cs →
      ∀ ch ∈ packAux cs current ps, ch.length ≤ cs := by
  intro ps
  induction ps with
  | nil =>
    intro _ current hle ch hch
    by_cases h : ((pyStrip current).isEmpty) = true
    · rw [packAux, if_pos h] at hch; simp at hch
    · rw [packAux, if_neg h] at hch
      simp at hch
      subst hch
      exact le_trans (pyStrip_length_le current) hle
  | cons p rest ih =>
    intro hps current hle ch hch
    have hp : p.length ≤ cs := hps p (by simp)
    have hrest : ∀ q ∈ rest, q.length ≤ cs := fun q hq => hps q (by simp [hq])
    by_cases h : current ≠ [] ∧ cs < (current ++ p).length
    · by_cases hs : ((pyStrip current).isEmpty) = true
      · rw [packAux, if_pos h, if_pos hs] at hch
        exact ih hrest p hp ch hch
      · rw [packAux, if_pos h, if_neg hs] at hch
        rcases List.mem_cons.mp hch with hch | hch
        · subst hch
          exact le_trans (pyStrip_length_le current) hle
        · exact ih hrest p hp ch hch
    · rw [packAux, if_neg h] at hch
      have hcp : (current ++ p).length ≤ cs := by
        push_neg at h
        by_cases hc : current = []
        · subst hc; simpa using hp
        · exact h hc
      exact ih hrest (current ++ p) hcp ch hch

/-- C3 (counterexample): the round-trip claim fails as stated.  On the
whitespace-only input consisting of a single space, `split_for_streaming`
emits no segments at all, so the concatenation of all segments is empty and
the space character is lost. -/
theorem split_for_streaming_not_round_trip :
    split_for_streaming 50 [' '] = [] ∧ (split_for_streaming 50 [' ']).flatten ≠ [' '] := by
  constructor
  · decide
  · decide

/-- C3 (amended): for every input string containing no whitespace characters,
concatenating in order all segments produced by `TextSplitter.split_for_streaming`
(which itself appends the trailing buffer) reproduces the original string with
no characters lost or duplicated.  (The code strips whitespace at segment
boundaries and drops whitespace-only buffers, so the round trip holds exactly
on whitespace-free inputs.) -/
theorem split_for_streaming_round_trip_nospace (cs : Nat) (text : List Char)
    (ht : text.all (fun c => !(pyIsSpace c)) = true) :
    (split_for_streaming cs text).flatten = text := by
  have ht' : ∀ c ∈ text, pyIsSpace c = false := by
    intro c hc
    simpa using List.all_eq_true.mp ht c hc
  unfold split_for_streaming
  by_cases h : text.isEmpty
  · rw [if_pos h]; simp [List.isEmpty_iff.mp h]
  · rw [if_neg h]
    have hpieces : ∀ p ∈ sentencePieces cs text, ∀ c ∈ p, pyIsSpace c = false := by
      intro p hp c hc
      exact ht' c (by rw [← sentencePieces_flatten_nospace cs text ht']
                      exact List.mem_flatten.mpr ⟨p, hp, hc⟩)
    have hmem := packAux_mem_nospace cs (sentencePieces cs text) hpieces []
      (by intro x hx; simp at hx)
    have hfil : (packAux cs [] (sentencePieces cs text)).filter
        (fun ch => !(pyStrip ch).isEmpty) = packAux cs [] (sentencePieces cs text) := by
      apply List.filter_eq_self.mpr
      intro a ha
      obtain ⟨hne, hnos⟩ := hmem a ha
      rw [pyStrip_eq_self hnos]
      simpa using hne
    rw [hfil, packAux_flatten_nospace cs (sentencePieces cs text) hpieces []
      (by intro x hx; simp at hx)]
    simpa using sentencePieces_flatten_nospace cs text ht'

/-- Witness for the amended C3 theorem at a concrete whitespace-free input. -/
theorem split_for_streaming_round_trip_nospace_witness :
    ("こんにちは。".data.all (fun c => !(pyIsSpace c)) = true) ∧
      (split_for_streaming 50 "こんにちは。".data).flatten = "こんにちは。".data :=
  ⟨by decide, split_for_streaming_round_trip_nospace 50 _ (by decide)⟩

/-- C6: for a positive chunk size, every segment emitted by
`TextSplitter.split_for_streaming` has length at most `chunk_size`.  This holds
for every input, in particular for inputs free of pathological unsplittable
runs: `split_by_breath_markers` cuts at the `chunk_size` boundary even inside a
run with no breath mark, so no piece and hence no packed segment ever exceeds
the bound. -/
theorem split_for_streaming_length_le (cs : Nat) (hcs : 0 < cs) (text : List Char) :
    ∀ ch ∈ split_for_streaming cs text, ch.length ≤ cs := by
  intro ch hch
  unfold split_for_streaming at hch
  by_cases h : text.isEmpty
  · rw [if_pos h] at hch; simp at hch
  · rw [if_neg h] at hch
    exact packAux_length_le cs (sentencePieces cs text)
      (sentencePieces_length_le cs hcs text) [] (by simp) ch (List.mem_filter.mp hch).1

/-- Witness for C6 at the spec's own example input and the default
`chunk_size = 50`. -/
theorem split_for_streaming_length_le_witness :
    (0 < 50 ∧ "こんにちは！今日は元気？".data ∈
        split_for_streaming 50 "こんにちは！今日は元気？".data) ∧
      ("こんにちは！今日は元気？".data).length ≤ 50 :=
  ⟨⟨by decide, by decide⟩,
    split_for_streaming_length_le 50 (by decide) ("こんにちは！今日は元気？".data)
      ("こんにちは！今日は元気？".data) (by decide)⟩

/-! ### VoiceService (src/services/voice_service.py)

The HTTP world is abstracted as oracles: for each Gradio server (by its index
in `VITS_SPACES`) the oracle yields the outcome of that attempt, and a separate
value gives the outcome of the final Artrajz fallback request.  Each outcome is
either one of the exception classes caught by the per-attempt handlers in
`generate_audio` (timeout, HTTPError, ConnectionError, any other exception) or
a completed request whose extracted audio (`_extract_audio_from_response`,
including the secondary file download) is `none`, empty, or non-empty bytes. -/

structure VitsSpace where
  url : String
  name : String
  stype : String
  fn_index : Nat

/-- `VoiceService.VITS_SPACES`: the three Gradio servers in priority order. -/
def VITS_SPACES : List VitsSpace := [
  ⟨"https://skytnt-moe-tts.hf.space/api/predict", "skytnt-moe-tts", "gradio_post", 0⟩,
  ⟨"https://zomehwh-vits-models.hf.space/api/predict", "zomehwh-vits-models", "gradio_post", 1⟩,
  ⟨"https://k2-fsa-text-to-speech.hf.space/api/predict", "k2-fsa-tts", "gradio_post", 0⟩]

/-- Outcome of one Gradio-server attempt, as observed by the `try/except`
blocks of `VoiceService.generate_audio`. -/
inductive AttemptResult where
  | timeout : AttemptResult
  | httpError : Nat → AttemptResult
  | connectionError : AttemptResult
  | unexpectedError : AttemptResult
  | response : Option (List Nat) → AttemptResult
deriving DecidableEq

/-- What `generate_audio` treats as a successful attempt: a completed request
from which `_extract_audio_from_response` produced non-empty audio bytes
(`if audio_data:`).  Every other outcome makes the loop continue. -/
def attemptSuccess : AttemptResult → Option (List Nat)
  | AttemptResult.response (some bytes) => if bytes.isEmpty then none else some bytes
  | _ => none

/-- Outcome of the final Artrajz fallback GET request. -/
inductive ArtrajzResult where
  | timeout : ArtrajzResult
  | httpError : Nat → ArtrajzResult
  | connectionError : ArtrajzResult
  | unexpectedError : ArtrajzResult
  | response : List Nat → ArtrajzResult
deriving DecidableEq

/-- Success test of the Artrajz fallback: the request completed and
`response.content` is non-empty. -/
def artrajzSuccess : ArtrajzResult → Option (List Nat)
  | ArtrajzResult.response content => if content.isEmpty then none else some content
  | _ => none

/-- RFC 4648 base64 alphabet, as used by Python `base64.b64encode`. -/
def base64Table : List Char :=
  "ABCDEFGHIJKLMNOPQRSTUVWXYZabcdefghijklmnopqrstuvwxyz0123456789+/".data

def b64char (n : Nat) : Char := base64Table.getD n '='

/-- Base64 encoding of a byte list (bytes are `Nat`s below 256). -/
def base64Encode : List Nat → List Char
  | [] => []
  | [a] => [b64char (a / 4 % 64), b64char (a % 4 * 16), '=', '=']
  | [a, b] => [b64char (a / 4 % 64), b64char (a % 4 * 16 + b / 16 % 16),
               b64char (b % 16 * 4), '=']
  | a :: b :: c :: rest =>
      b64char (a / 4 % 64) :: b64char (a % 4 * 16 + b / 16 % 16) ::
      b64char (b % 16 * 4 + c / 64 % 4) :: b64char (c % 64) :: base64Encode rest

/-- The value returned on success:
`f"data:audio/wav;base64,{audio_b64}"`. -/
def dataUri (bytes : List Nat) : String :=
  "data:audio/wav;base64," ++ String.mk (base64Encode bytes)

/-- `self.speaker_map` as initialised in `VoiceService.__init__`. -/
def speaker_map : List (String × String) :=
  [("default", "神里綾華"), ("shiro", "神里綾華")]

def lookupStr (k : String) : List (String × String) → Option String
  | [] => none
  | (a, v) :: rest => if a = k then some v else lookupStr k rest

/-- `self.speaker_map.get(character_id, self.speaker_map["default"])`. -/
def getSpeaker (character_id : String) : String :=
  match lookupStr character_id speaker_map with
  | some s => s
  | none => (lookupStr "default" speaker_map).getD ""

/-- The observable behaviour of one call to `VoiceService.generate_audio`:
the returned value, the speaker chosen, the Gradio attempts made (name and
outcome, in order), and the Artrajz attempt when it was reached. -/
structure GenerateAudioRun where
  result : Option String
  speaker : Option String
  gradioAttempts : List (String × AttemptResult)
  artrajzAttempt : Option ArtrajzResult
deriving DecidableEq

/-- The `for idx, server in enumerate(self.VITS_SPACES)` loop: try each server
in order, return the first success, and record every attempt made.  Every
per-attempt error is consumed here (the `except` clauses all `continue`). -/
def tryServers (oracle : Nat → AttemptResult) :
    Nat → List VitsSpace → Option (List Nat) × List (String × AttemptResult)
  | _, [] => (none, [])
  | idx, s :: rest =>
    match attemptSuccess (oracle idx) with
    | some bytes => (some bytes, [(s.name, oracle idx)])
    | none =>
      let r := tryServers oracle (idx + 1) rest
      (r.1, (s.name, oracle idx) :: r.2)

/-- `VoiceService.generate_audio`: validate input, resolve the speaker, try
the Gradio servers in priority order, then the Artrajz fallback; return the
base64 data URI of the first success, or `None` when everything failed.  The
function is total: no attempt outcome escapes it. -/
def generate_audio (oracle : Nat → AttemptResult) (artrajz : ArtrajzResult)
    (text : List Char) (character_id : String) : GenerateAudioRun :=
  if pyIsBlank text then
    ⟨none, none, [], none⟩
  else
    let speaker := getSpeaker character_id
    let g := tryServers oracle 0 VITS_SPACES
    match g.1 with
    | some bytes => ⟨some (dataUri bytes), some speaker, g.2, none⟩
    | none =>
      match artrajzSuccess artrajz with
      | some content => ⟨some (dataUri content), some speaker, g.2, some artrajz⟩
      | none => ⟨none, some speaker, g.2, some artrajz⟩

/-- `personality or voice_id or "shiro"`: Python `or` treats the empty string
and `None` as falsy. -/
def pyOrStr (a : Option String) (b : String) : String :=
  match a with
  | some s => if s.isEmpty then b else s
  | none => b

/-- `TTSManager.synthesize_speech_optimized` (src/app.py): empty-text check,
then delegate to `voice_service.generate_audio`; any exception is caught and
turned into `None` (the embedded `generate_audio` is already total). -/
def synthesize_speech_optimized (oracle : Nat → AttemptResult) (artrajz : ArtrajzResult)
    (text : List Char) (voice_id : Option String) (personality : Option String) :
    Option String :=
  if pyIsBlank text then none
  else
    let character_id := pyOrStr personality (pyOrStr voice_id "shiro")
    (generate_audio oracle artrajz text character_id).result

/-- C1: `VoiceService.generate_audio` attempts the configured endpoints
strictly in their fixed priority order and returns the result of the first
endpoint that succeeds: whenever the first two servers fail (timeout,
connection error, HTTP error, unexpected error, or empty/unparseable audio —
exactly the outcomes with `attemptSuccess = none`) and the third succeeds with
audio `bytes`, the call returns the data URI of `bytes` and the recorded
attempts are exactly the two failures followed by the success, in order;
the Artrajz fallback is never reached. -/
theorem generate_audio_failover_order (oracle : Nat → AttemptResult)
    (artrajz : ArtrajzResult) (text : List Char) (character_id : String)
    (bytes : List Nat) (htext : pyIsBlank text = false)
    (h0 : attemptSuccess (oracle 0) = none)
    (h1 : attemptSuccess (oracle 1) = none)
    (h2 : attemptSuccess (oracle 2) = some bytes) :
    generate_audio oracle artrajz text character_id =
      ⟨some (dataUri bytes), some (getSpeaker character_id),
       [("skytnt-moe-tts", oracle 0), ("zomehwh-vits-models", oracle 1),
        ("k2-fsa-tts", oracle 2)], none⟩ := by
  simp [generate_audio, htext, tryServers, VITS_SPACES, h0, h1, h2]

/-- A concrete witness for C1: the first two servers time out, the third
returns audio bytes `[1, 2, 3]`. -/
def exOracleC1 : Nat → AttemptResult := fun i =>
  if i = 2 then AttemptResult.response (some [1, 2, 3]) else AttemptResult.timeout

theorem generate_audio_failover_order_witness :
    generate_audio exOracleC1 ArtrajzResult.connectionError "やあ".data "shiro" =
      ⟨some (dataUri [1, 2, 3]), some (getSpeaker "shiro"),
       [("skytnt-moe-tts", exOracleC1 0), ("zomehwh-vits-models", exOracleC1 1),
        ("k2-fsa-tts", exOracleC1 2)], none⟩ :=
  generate_audio_failover_order exOracleC1 ArtrajzResult.connectionError
    ("やあ".data) "shiro" [1, 2, 3] (by decide) (by decide) (by decide) (by decide)

/-- C2: when every configured endpoint fails — all three Gradio servers and
the final Artrajz fallback — `generate_audio` returns `None`.  Every
per-attempt error is consumed inside the attempt loop (the oracles enumerate
exactly the exception classes the `except` clauses catch), and the embedded
function is total, so no exception propagates to the caller. -/
theorem generate_audio_total_failure (oracle : Nat → AttemptResult)
    (artrajz : ArtrajzResult) (text : List Char) (character_id : String)
    (h0 : attemptSuccess (oracle 0) = none)
    (h1 : attemptSuccess (oracle 1) = none)
    (h2 : attemptSuccess (oracle 2) = none)
    (ha : artrajzSuccess artrajz = none) :
    (generate_audio oracle artrajz text character_id).result = none := by
  by_cases hb : pyIsBlank text = true
  · simp [generate_audio, hb]
  · have hb' : pyIsBlank text = false := by simpa using hb
    simp [generate_audio, hb', tryServers, VITS_SPACES, h0, h1, h2, ha]

theorem generate_audio_total_failure_witness :
    (generate_audio (fun _ => AttemptResult.connectionError)
      ArtrajzResult.connectionError "やあ".data "shiro").result = none :=
  generate_audio_total_failure (fun _ => AttemptResult.connectionError)
    ArtrajzResult.connectionError ("やあ".data) "shiro"
    (by decide) (by decide) (by decide) (by decide)

/-- C9: for every empty or whitespace-only input text, both
`VoiceService.generate_audio` and `TTSManager.synthesize_speech_optimized`
short-circuit and return `None` with no attempt made against any backend
(no Gradio attempt and no Artrajz attempt are recorded). -/
theorem blank_text_short_circuit (oracle : Nat → AttemptResult)
    (artrajz : ArtrajzResult) (text : List Char) (character_id : String)
    (voice_id personality : Option String) (hb : pyIsBlank text = true) :
    generate_audio oracle artrajz text character_id =
        ⟨none, none, [], none⟩ ∧
      synthesize_speech_optimized oracle artrajz text voice_id personality = none := by
  constructor
  · simp [generate_audio, hb]
  · simp [synthesize_speech_optimized, hb]

theorem blank_text_short_circuit_witness :
    (generate_audio (fun _ => AttemptResult.timeout) ArtrajzResult.timeout
        " ".data "shiro" = ⟨none, none, [], none⟩ ∧
      synthesize_speech_optimized (fun _ => AttemptResult.timeout)
        ArtrajzResult.timeout " ".data none none = none) ∧
      pyIsBlank " ".data = true :=
  ⟨blank_text_short_circuit (fun _ => AttemptResult.timeout) ArtrajzResult.timeout
      (" ".data) "shiro" none none (by decide), by decide⟩

/-- C10: a `character_id` not present in `speaker_map` falls back to the
`"default"` entry: the chosen speaker equals the one chosen for `"default"`,
both in `getSpeaker` and in the speaker recorded by `generate_audio`. -/
theorem unknown_character_uses_default_speaker (oracle : Nat → AttemptResult)
    (artrajz : ArtrajzResult) (text : List Char) (character_id : String)
    (h1 : character_id ≠ "default") (h2 : character_id ≠ "shiro") :
    getSpeaker character_id = getSpeaker "default" ∧
      (generate_audio oracle artrajz text character_id).speaker =
        (generate_audio oracle artrajz text "default").speaker := by
  have hd : ¬("default" = character_id) := fun h => h1 h.symm
  have hs : ¬("shiro" = character_id) := fun h => h2 h.symm
  have hg : getSpeaker character_id = getSpeaker "default" := by
    simp [getSpeaker, lookupStr, speaker_map, hd, hs]
  refine ⟨hg, ?_⟩
  have hsp : ∀ cid : String, (generate_audio oracle artrajz text cid).speaker =
      if pyIsBlank text then none else some (getSpeaker cid) := by
    intro cid
    by_cases hb : pyIsBlank text = true
    · simp [generate_audio, hb]
    · have hb' : pyIsBlank text = false := by simpa using hb
      simp only [generate_audio, hb', Bool.false_eq_true, if_false]
      rcases hg1 : (tryServers oracle 0 VITS_SPACES).1 with _ | bytes
      · rcases hart : artrajzSuccess artrajz with _ | c <;> simp [hg1, hart]
      · simp [hg1]
  rw [hsp character_id, hsp "default", hg]

theorem unknown_character_uses_default_speaker_witness :
    getSpeaker "alice" = getSpeaker "default" ∧
      (generate_audio (fun _ => AttemptResult.timeout) ArtrajzResult.timeout
          "やあ".data "alice").speaker =
        (generate_audio (fun _ => AttemptResult.timeout) ArtrajzResult.timeout
          "やあ".data "default").speaker :=
  unknown_character_uses_default_speaker (fun _ => AttemptResult.timeout)
    ArtrajzResult.timeout ("やあ".data) "alice" (by decide) (by decide)

/-! ### Streaming orchestrator (src/app.py, AIConversationManager)

`stream_gemini_response` keeps a local `chunk_index` starting at 0; for every
non-empty Gemini chunk it splits the chunk text with
`TextSplitter.split_for_streaming` and, for every non-blank text chunk,
increments `chunk_index` and emits a per-segment event carrying it.  The token
source is abstracted as the list of text fragments the Gemini stream yielded.
`generate_response_streaming` consumes the primary stream and, when it raised
mid-stream, runs a fresh `stream_gemini_response` over the fallback model. -/

/-- Number successive texts with indices `idx + 1, idx + 2, …`. -/
def numberFrom (idx : Nat) : List (List Char) → List (Nat × List Char)
  | [] => []
  | t :: rest => (idx + 1, t) :: numberFrom (idx + 1) rest

/-- The per-chunk loop of `stream_gemini_response` (chunk size fixed, index
threaded through): skip falsy chunks, split, filter blanks, number and emit. -/
def streamEmitAux (cs : Nat) : Nat → List (List Char) → List (Nat × List Char)
  | _, [] => []
  | idx, g :: rest =>
    if g.isEmpty then streamEmitAux cs idx rest
    else
      let tcs := (split_for_streaming cs g).filter (fun tc => !(pyStrip tc).isEmpty)
      numberFrom idx tcs ++ streamEmitAux cs (idx + tcs.length) rest

/-- The per-segment events (chunk index, text) emitted by one call to
`AIConversationManager.stream_gemini_response`. -/
def stream_gemini_response (cs : Nat) (geminiChunks : List (List Char)) :
    List (Nat × List Char) :=
  streamEmitAux cs 0 geminiChunks

/-- The per-segment events of one `generate_response_streaming` session.
When the primary stream raises mid-stream (after yielding `primaryChunks`),
the whole fallback stream is run through a fresh `stream_gemini_response`,
whose local `chunk_index` restarts at 0. -/
def generate_response_streaming_events (cs : Nat) (primaryChunks : List (List Char))
    (primaryFailsMidStream : Bool) (fallbackChunks : List (List Char)) :
    List (Nat × List Char) :=
  if primaryFailsMidStream then
    stream_gemini_response cs primaryChunks ++ stream_gemini_response cs fallbackChunks
  else
    stream_gemini_response cs primaryChunks

theorem numberFrom_map_fst (l : List (List Char)) :
    ∀ idx, (numberFrom idx l).map Prod.fst = List.range' (idx + 1) l.length := by
  induction l with
  | nil => intro idx; simp [numberFrom]
  | cons t rest ih =>
    intro idx
    simp [numberFrom, ih (idx + 1), List.range'_succ]

theorem numberFrom_length (l : List (List Char)) :
    ∀ idx, (numberFrom idx l).length = l.length := by
  induction l with
  | nil => intro idx; simp [numberFrom]
  | cons t rest ih => intro idx; simp [numberFrom, ih (idx + 1)]

theorem streamEmitAux_map_fst (cs : Nat) (gs : List (List Char)) :
    ∀ idx, (streamEmitAux cs idx gs).map Prod.fst =
      List.range' (idx + 1) (streamEmitAux cs idx gs).length := by
  induction gs with
  | nil => intro idx; simp [streamEmitAux]
  | cons g rest ih =>
    intro idx
    by_cases h : g.isEmpty
    · simp only [streamEmitAux, if_pos h]
      exact ih idx
    · simp only [streamEmitAux, if_neg h]
      rw [List.map_append, numberFrom_map_fst, ih, List.length_append, numberFrom_length]
      generalize (List.filter (fun tc => !(pyStrip tc).isEmpty)
        (split_for_streaming cs g)).length = n
      generalize (streamEmitAux cs (idx + n) rest).length = m
      rw [show idx + n + 1 = (idx + 1) + n from by omega,
          show n + m = m + n from by omega]
      exact List.range'_append_1 (idx + 1) n m

/-- C4 (counterexample): with a mid-stream failover the emitted chunk indices
are not `1, 2, …` — the fallback stream restarts its local `chunk_index` at 0,
so a session whose primary stream emitted one segment before raising and whose
fallback stream emits one segment observes indices `[1, 1]`. -/
theorem chunk_indices_repeat_on_failover :
    (generate_response_streaming_events 50 ["あ。".data] true ["い。".data]).map
        Prod.fst = [1, 1] ∧
      ¬ ((generate_response_streaming_events 50 ["あ。".data] true
          ["い。".data]).map Prod.fst = List.range' 1 2) := by
  constructor
  · decide
  · decide

/-- C4 (amended): within one streaming session in which the primary token
source does not fail mid-stream, the chunk_index values attached to the
emitted per-segment events are exactly `1, 2, 3, …` with no gaps and no
repeats.  (When the orchestrator fails over mid-stream, the fallback stream's
indices restart from 1, so the session can observe repeated indices.) -/
theorem chunk_indices_exact (cs : Nat) (primaryChunks fallbackChunks : List (List Char)) :
    (generate_response_streaming_events cs primaryChunks false fallbackChunks).map
        Prod.fst =
      List.range' 1
        (generate_response_streaming_events cs primaryChunks false fallbackChunks).length := by
  simpa [generate_response_streaming_events, stream_gemini_response]
    using streamEmitAux_map_fst cs primaryChunks 0

/-! ### ElevenLabsQueue (src/app.py)

`ElevenLabsQueue.__init__` sets `max_concurrent = 3`.  `start_worker` creates
the single `_process_queue` supervisor task exactly once (guarded by
`_worker_started` on the single-threaded event loop).  The supervisor loop
dequeues one task, acquires the semaphore, awaits `_execute_tts_task` to
completion, and releases the semaphore before dequeuing the next task.  The
step relation below models the interleaving visible on the event loop:
producers enqueue at any time; the one worker moves between being idle and
executing a single task; `inFlight` counts the tasks currently inside
`_execute_tts_task`. -/

/-- `max_concurrent_requests: int = 3` (default of `ElevenLabsQueue`). -/
def max_concurrent_default : Nat := 3

inductive WorkerPhase where
  | idle : WorkerPhase
  | executing : Nat → WorkerPhase
deriving DecidableEq

structure QueueState where
  pending : List Nat
  phase : WorkerPhase
  permits : Nat
  inFlight : Nat
deriving DecidableEq

/-- Initial state: empty queue, idle worker, all semaphore permits free. -/
def initState (maxC : Nat) : QueueState :=
  ⟨[], WorkerPhase.idle, maxC, 0⟩

/-- One event-loop transition of the queue system. -/
inductive QueueStep : QueueState → QueueState → Prop where
  | enqueue (s : QueueState) (t : Nat) :
      QueueStep s ⟨s.pending ++ [t], s.phase, s.permits, s.inFlight⟩
  | beginTask (s : QueueState) (t : Nat) (rest : List Nat)
      (hp : s.pending = t :: rest) (hidle : s.phase = WorkerPhase.idle)
      (hperm : 0 < s.permits) :
      QueueStep s ⟨rest, WorkerPhase.executing t, s.permits - 1, s.inFlight + 1⟩
  | endTask (s : QueueState) (t : Nat)
      (hex : s.phase = WorkerPhase.executing t) :
      QueueStep s ⟨s.pending, WorkerPhase.idle, s.permits + 1, s.inFlight - 1⟩

/-- States reachable from the initial state of a queue configured with
`maxC` concurrent requests. -/
inductive QueueReachable (maxC : Nat) : QueueState → Prop where
  | init : QueueReachable maxC (initState maxC)
  | step {s s' : QueueState} :
      QueueReachable maxC s → QueueStep s s' → QueueReachable maxC s'

/-- Tasks in flight as a function of the worker phase. -/
def phaseLoad : WorkerPhase → Nat
  | WorkerPhase.idle => 0
  | WorkerPhase.executing _ => 1

theorem reachable_inFlight_eq_phaseLoad (maxC : Nat) :
    ∀ s, QueueReachable maxC s → s.inFlight = phaseLoad s.phase := by
  intro s hs
  induction hs with
  | init => rfl
  | step _ hstep ih =>
    cases hstep with
    | enqueue t => simpa using ih
    | beginTask t rest hp hidle hperm =>
      simp only [phaseLoad]
      rw [hidle] at ih
      simp [phaseLoad] at ih
      omega
    | endTask t hex =>
      simp only [phaseLoad]
      rw [hex] at ih
      simp [phaseLoad] at ih
      omega

/-- C5: in every reachable state of the queue's step relation, the number of
tasks concurrently executing `_execute_tts_task` never exceeds
`max_concurrent` (default 3).  In fact the single sequential supervisor of the
source awaits each task to completion before dequeuing the next, so at most
one task is ever in flight — well below the semaphore bound. -/
theorem queue_inflight_le_max_concurrent :
    ∀ s, QueueReachable max_concurrent_default s →
      s.inFlight ≤ max_concurrent_default := by
  intro s hs
  rw [reachable_inFlight_eq_phaseLoad max_concurrent_default s hs]
  cases hph : s.phase <;> simp [phaseLoad, max_concurrent_default]

theorem queue_inflight_le_max_concurrent_witness :
    (initState max_concurrent_default).inFlight ≤ max_concurrent_default :=
  queue_inflight_le_max_concurrent (initState max_concurrent_default)
    QueueReachable.init

/-! ### Worker failure semantics (`_execute_tts_task`) -/

structure TtsTask where
  text : List Char
  chunk_index : Nat
  emotion : String
  personality : String
  session_id : String

/-- The `message_chunk` payload emitted for a task. -/
structure ChunkEvent where
  text : List Char
  emotion : String
  audio_data : Option String
  chunk_index : Nat
  personality : String
  session_id : String

/-- Outcome of `run_in_executor(tts_manager.synthesize_speech_optimized, text)`
for one task: a returned value (possibly `None`) or a raised exception. -/
def exceptFailed : Except Unit (Option String) → Bool
  | Except.error _ => true
  | Except.ok _ => false

/-- `ElevenLabsQueue._execute_tts_task`: on a normal return the synthesized
audio (or `None`) is forwarded; when the synthesis call raises, the `except`
block emits the same event with `audio_data = None`. -/
def execute_tts_task (synth : Except Unit (Option String)) (t : TtsTask) : ChunkEvent :=
  match synth with
  | Except.ok audio =>
      ⟨t.text, t.emotion, audio, t.chunk_index, t.personality, t.session_id⟩
  | Except.error _ =>
      ⟨t.text, t.emotion, none, t.chunk_index, t.personality, t.session_id⟩

/-- `ElevenLabsQueue._process_queue` over a backlog of tasks: every iteration
emits exactly one event per task and continues with the rest, whatever the
synthesis outcome was (`_execute_tts_task` catches its own errors, and the
supervisor's own `try/except` keeps the loop alive). -/
def process_queue (synth : TtsTask → Except Unit (Option String)) :
    List TtsTask → List ChunkEvent
  | [] => []
  | t :: rest => execute_tts_task (synth t) t :: process_queue synth rest

/-- C8: a failing task never terminates the supervisor: the queue emits one
event per queued task, in order (so all tasks after a failing one are still
processed), and a task whose synthesis call raised gets its event with
`audio_data = None`. -/
theorem process_queue_survives_errors (synth : TtsTask → Except Unit (Option String))
    (tasks : List TtsTask) :
    (process_queue synth tasks).length = tasks.length ∧
      (∀ i : Nat, ∀ t : TtsTask, tasks[i]? = some t →
        (process_queue synth tasks)[i]? = some (execute_tts_task (synth t) t)) ∧
      (∀ t : TtsTask, exceptFailed (synth t) = true →
        (execute_tts_task (synth t) t).audio_data = none) := by
  refine ⟨?_, ?_, ?_⟩
  · induction tasks with
    | nil => rfl
    | cons t rest ih => simp [process_queue, ih]
  · intro i
    induction tasks generalizing i with
    | nil => intro t ht; simp at ht
    | cons u rest ih =>
      intro t ht
      cases i with
      | zero => simp at ht; subst ht; simp [process_queue]
      | succ j =>
        simp only [List.getElem?_cons_succ] at ht
        simpa [process_queue] using ih j t ht
  · intro t hf
    cases hs : synth t with
    | ok audio => rw [hs] at hf; simp [exceptFailed] at hf
    | error e => simp [execute_tts_task]

def exTask : TtsTask := ⟨"やあ".data, 1, "neutral", "shiro", "sess1"⟩

theorem process_queue_survives_errors_witness :
    (process_queue (fun _ => Except.error ()) [exTask])[0]? =
        some (execute_tts_task (Except.error ()) exTask) ∧
      (execute_tts_task (Except.error ()) exTask).audio_data = none :=
  ⟨(process_queue_survives_errors (fun _ => Except.error ()) [exTask]).2.1 0 exTask rfl,
   (process_queue_survives_errors (fun _ => Except.error ()) [exTask]).2.2 exTask rfl⟩

/-! ### Emotion classification (src/app.py)

`AIConversationManager.analyze_emotion` and the module-level
`analyze_emotion_simple` share the same structure; the latter has one extra
positive keyword (`わくわく`).  Python's `word in text` is substring
containment, modelled by the decidable infix relation on character lists. -/

/-- Python `word in text` (substring containment). -/
def containsSub (w text : List Char) : Bool :=
  decide (w <:+: text)

def surprised_words : List (List Char) :=
  ["驚いた".data, "びっくり".data, "すごい".data, "信じられない".data]

def positive_words : List (List Char) :=
  ["嬉しい".data, "楽しい".data, "幸せ".data, "好き".data, "ありがとう".data,
   "素晴らしい".data]

def negative_words : List (List Char) :=
  ["悲しい".data, "辛い".data, "嫌い".data, "疲れた".data, "困った".data,
   "不安".data]

def positive_words_simple : List (List Char) :=
  ["嬉しい".data, "楽しい".data, "幸せ".data, "好き".data, "ありがとう".data,
   "素晴らしい".data, "わくわく".data]

/-- The shared `if any(...) / elif any(...) / elif any(...) / else` chain. -/
def classify_keywords (sw pw nw : List (List Char)) (text : List Char) : String :=
  if sw.any (fun w => containsSub w text) then "surprised"
  else if pw.any (fun w => containsSub w text) then "happy"
  else if nw.any (fun w => containsSub w text) then "sad"
  else "neutral"

/-- `AIConversationManager.analyze_emotion`. -/
def analyze_emotion (text : List Char) : String :=
  classify_keywords surprised_words positive_words negative_words text

/-- Module-level `analyze_emotion_simple`. -/
def analyze_emotion_simple (text : List Char) : String :=
  classify_keywords surprised_words positive_words_simple negative_words text

theorem any_containsSub_iff (ws : List (List Char)) (text : List Char) :
    (ws.any (fun w => containsSub w text) = true) ↔ ∃ w ∈ ws, w <:+: text := by
  simp [containsSub, List.any_eq_true]

theorem classify_keywords_spec (sw pw nw : List (List Char)) (text : List Char) :
    ((∃ w ∈ sw, w <:+: text) → classify_keywords sw pw nw text = "surprised") ∧
    (¬(∃ w ∈ sw, w <:+: text) → (∃ w ∈ pw, w <:+: text) →
      classify_keywords sw pw nw text = "happy") ∧
    (¬(∃ w ∈ sw, w <:+: text) → ¬(∃ w ∈ pw, w <:+: text) →
      (∃ w ∈ nw, w <:+: text) → classify_keywords sw pw nw text = "sad") ∧
    (¬(∃ w ∈ sw, w <:+: text) → ¬(∃ w ∈ pw, w <:+: text) →
      ¬(∃ w ∈ nw, w <:+: text) → classify_keywords sw pw nw text = "neutral") := by
  refine ⟨?_, ?_, ?_, ?_⟩
  · intro hs
    simp [classify_keywords, (any_containsSub_iff sw text).mpr hs]
  · intro hs hp
    have hs' : (sw.any (fun w => containsSub w text)) = false := by
      rw [← Bool.not_eq_true]; rw [any_containsSub_iff]; exact hs
    simp [classify_keywords, hs', (any_containsSub_iff pw text).mpr hp]
  · intro hs hp hn
    have hs' : (sw.any (fun w => containsSub w text)) = false := by
      rw [← Bool.not_eq_true]; rw [any_containsSub_iff]; exact hs
    have hp' : (pw.any (fun w => containsSub w text)) = false := by
      rw [← Bool.not_eq_true]; rw [any_containsSub_iff]; exact hp
    simp [classify_keywords, hs', hp', (any_containsSub_iff nw text).mpr hn]
  · intro hs hp hn
    have hs' : (sw.any (fun w => containsSub w text)) = false := by
      rw [← Bool.not_eq_true]; rw [any_containsSub_iff]; exact hs
    have hp' : (pw.any (fun w => containsSub w text)) = false := by
      rw [← Bool.not_eq_true]; rw [any_containsSub_iff]; exact hp
    have hn' : (nw.any (fun w => containsSub w text)) = false := by
      rw [← Bool.not_eq_true]; rw [any_containsSub_iff]; exact hn
    simp [classify_keywords, hs', hp', hn']

/-- C7: both emotion classifiers are pure functions of the text that check
their keyword sets in fixed priority order: `surprised` when a surprise
keyword occurs in the text, otherwise `happy` when a positive keyword occurs,
otherwise `sad` when a negative keyword occurs, otherwise `neutral`. -/
theorem analyze_emotion_priority_order (text : List Char) :
    (((∃ w ∈ surprised_words, w <:+: text) → analyze_emotion text = "surprised") ∧
     (¬(∃ w ∈ surprised_words, w <:+: text) → (∃ w ∈ positive_words, w <:+: text) →
       analyze_emotion text = "happy") ∧
     (¬(∃ w ∈ surprised_words, w <:+: text) → ¬(∃ w ∈ positive_words, w <:+: text) →
       (∃ w ∈ negative_words, w <:+: text) → analyze_emotion text = "sad") ∧
     (¬(∃ w ∈ surprised_words, w <:+: text) → ¬(∃ w ∈ positive_words, w <:+: text) →
       ¬(∃ w ∈ negative_words, w <:+: text) → analyze_emotion text = "neutral")) ∧
    (((∃ w ∈ surprised_words, w <:+: text) → analyze_emotion_simple text = "surprised") ∧
     (¬(∃ w ∈ surprised_words, w <:+: text) →
       (∃ w ∈ positive_words_simple, w <:+: text) →
       analyze_emotion_simple text = "happy") ∧
     (¬(∃ w ∈ surprised_words, w <:+: text) →
       ¬(∃ w ∈ positive_words_simple, w <:+: text) →
       (∃ w ∈ negative_words, w <:+: text) → analyze_emotion_simple text = "sad") ∧
     (¬(∃ w ∈ surprised_words, w <:+: text) →
       ¬(∃ w ∈ positive_words_simple, w <:+: text) →
       ¬(∃ w ∈ negative_words, w <:+: text) →
       analyze_emotion_simple text = "neutral")) :=
  ⟨classify_keywords_spec surprised_words positive_words negative_words text,
   classify_keywords_spec surprised_words positive_words_simple negative_words text⟩

/-- Witness for C7: `"すごい！嬉しい"` contains both a surprise keyword and a
positive keyword, and surprise wins by priority. -/
theorem analyze_emotion_priority_order_witness :
    analyze_emotion "すごい！嬉しい".data = "surprised" ∧
      analyze_emotion_simple "すごい！嬉しい".data = "surprised" :=
  ⟨(analyze_emotion_priority_order ("すごい！嬉しい".data)).1.1
      ⟨"すごい".data, by decide, by decide⟩,
   (analyze_emotion_priority_order ("すごい！嬉しい".data)).2.1
      ⟨"すごい".data, by decide, by decide⟩⟩

end VMate
